import Mathlib

/-!
Shallow embedding of `validate_lws.py`, a single-file JSON shape validator.

The script reads a JSON document from stdin, dispatches on the top-level keys
`outputs` / `transactions`, validates each record, prints one diagnostic line
per step, and exits 0 on success and 1 on any failure.

Modelling conventions:
* JSON values are the inductive `Json`; numbers are modelled as integers
  (no claim depends on numeric representation).
* Python operations that can raise (`x in d`, `d[k]`, `len(x)`, iteration,
  `d.get(k)`) become `Except String _` computations; the carried string
  models the exception message (quotes of the CPython messages are dropped).
* Each `print(...)` of the script becomes a constructor of `Line` carrying
  the values interpolated into the f-string.
* `sys.exit(1)` raises `SystemExit`, which `except Exception` does NOT
  catch, so it is a distinct `Outcome.exited` terminal, separate from
  `Outcome.raised` (exceptions reaching the top-level handler).
* `re.match(r'^[0-9a-fA-F]+$', s)` is modelled by an executable matcher
  `pyReMatchHexPlus` reproducing Python semantics: `$` matches at the end
  of the string or just before a single trailing newline.
-/

namespace ValidateLws

/-- A parsed JSON value (Python objects produced by `json.load`).
Object fields are an association list; documents produced by `json.load`
have distinct keys. -/
inductive Json where
  | null : Json
  | bool : Bool → Json
  | num : Int → Json
  | str : String → Json
  | arr : List Json → Json
  | obj : List (String × Json) → Json

/-- The character class `[0-9a-fA-F]` of the script's regex. -/
def isHexDigitPy (c : Char) : Bool :=
  (Char.ofNat 48 ≤ c && c ≤ Char.ofNat 57) ||
  (Char.ofNat 97 ≤ c && c ≤ Char.ofNat 102) ||
  (Char.ofNat 65 ≤ c && c ≤ Char.ofNat 70)

/-- Remainder of the input after the greedy run of `[0-9a-fA-F]+`. -/
def dropHexRun : List Char → List Char
  | [] => []
  | c :: cs => if isHexDigitPy c then dropHexRun cs else c :: cs

/-- Python `$` (no MULTILINE): matches at the end of the string, or just
before a newline at the end of the string. -/
def dollarAt : List Char → Bool
  | [] => true
  | [c] => c == Char.ofNat 10
  | _ :: _ :: _ => false

/-- Models `re.match(r'^[0-9a-fA-F]+$', s) is not None`.  The `+` is greedy;
since `$` only succeeds on an empty remainder or a lone trailing newline
(never on a hex digit), backtracking cannot rescue a failed greedy run, so
the greedy-only matcher is exact. -/
def pyReMatchHexPlus (s : String) : Bool :=
  match s.toList with
  | [] => false
  | c :: cs => isHexDigitPy c && dollarAt (dropHexRun cs)

/-- `validate_hex(s, length)` from the script: length check, then regex. -/
def validate_hex (s : String) (length : Nat) : Bool :=
  if s.length ≠ length then false else pyReMatchHexPlus s

/-- Python type name, used in exception messages. -/
def pyTypeName : Json → String
  | .null => "NoneType"
  | .bool _ => "bool"
  | .num _ => "int"
  | .str _ => "str"
  | .arr _ => "list"
  | .obj _ => "dict"

/-- Python truthiness of a JSON value (`if not pubkey`). -/
def jtruthy : Json → Bool
  | .null => false
  | .bool b => b
  | .num n => n != 0
  | .str s => s.length != 0
  | .arr xs => !xs.isEmpty
  | .obj kvs => !kvs.isEmpty

/-- Python `==` between a string literal and a JSON value (used by list
membership): true only for an equal string, no exception otherwise. -/
def jeqStr (key : String) : Json → Bool
  | .str s => s == key
  | _ => false

/-- Does `pat` occur as a contiguous substring? (Python `x in someString`.) -/
def leadsWith : List Char → List Char → Bool
  | [], _ => true
  | _ :: _, [] => false
  | p :: ps, c :: cs => (p == c) && leadsWith ps cs

def containsSub (pat : List Char) : List Char → Bool
  | [] => leadsWith pat []
  | c :: cs => leadsWith pat (c :: cs) || containsSub pat cs

/-- Models Python `key in v`: dict key membership, list element membership,
substring test on strings; `TypeError` on non-iterables. -/
def jmem (key : String) : Json → Except String Bool
  | .obj kvs => .ok (kvs.any (fun kv => kv.1 == key))
  | .arr xs => .ok (xs.any (jeqStr key))
  | .str s => .ok (containsSub key.toList s.toList)
  | v => .error ("TypeError: argument of type " ++ pyTypeName v ++ " is not iterable")

/-- Models Python `v[key]` with a string key. -/
def jgetItem (key : String) : Json → Except String Json
  | .obj kvs =>
    match kvs.find? (fun kv => kv.1 == key) with
    | some kv => .ok kv.2
    | none => .error ("KeyError: " ++ key)
  | .arr _ => .error "TypeError: list indices must be integers or slices, not str"
  | .str _ => .error "TypeError: string indices must be integers"
  | v => .error ("TypeError: " ++ pyTypeName v ++ " object is not subscriptable")

/-- Models Python `len(v)`: code-point count for strings, element count for
lists, key count for dicts; `TypeError` otherwise. -/
def jlen : Json → Except String Nat
  | .str s => .ok s.length
  | .arr xs => .ok xs.length
  | .obj kvs => .ok kvs.length
  | v => .error ("TypeError: object of type " ++ pyTypeName v ++ " has no len")

/-- Models Python iteration (`for x in v`): list elements, one-character
strings for a string, keys for a dict; `TypeError` otherwise. -/
def jiter : Json → Except String (List Json)
  | .arr xs => .ok xs
  | .str s => .ok (s.toList.map (fun c => Json.str (String.mk [c])))
  | .obj kvs => .ok (kvs.map (fun kv => Json.str kv.1))
  | v => .error ("TypeError: " ++ pyTypeName v ++ " object is not iterable")

/-- Models Python `v.get(key)`: `None`-defaulting dict lookup;
`AttributeError` on anything that is not a dict. -/
def jget (key : String) : Json → Except String (Option Json)
  | .obj kvs =>
    match kvs.find? (fun kv => kv.1 == key) with
    | some kv => .ok (some kv.2)
    | none => .ok none
  | v => .error ("AttributeError: " ++ pyTypeName v ++ " object has no attribute get")

/-- `validate_hex(pubkey, length)` applied to an arbitrary JSON value, as the
script does: `len` may raise a `TypeError`; when the length matches,
`re.match` raises a `TypeError` unless the value is a string. -/
def validate_hexJ (v : Json) (length : Nat) : Except String Bool :=
  match jlen v with
  | .error msg => .error msg
  | .ok n =>
    if n ≠ length then .ok false
    else
      match v with
      | .str s => .ok (pyReMatchHexPlus s)
      | _ => .error ("TypeError: expected string or bytes-like object, got " ++ pyTypeName v)

/-- UTF-8 encoding of one character, as a big-endian list of byte values
(models Python `str.encode('utf-8')`). -/
def utf8Bytes (c : Char) : List Nat :=
  let n := c.toNat
  if n < 128 then [n]
  else if n < 2048 then [192 + n / 64, 128 + n % 64]
  else if n < 65536 then [224 + n / 4096, 128 + (n / 64) % 64, 128 + n % 64]
  else [240 + n / 262144, 128 + (n / 4096) % 64, 128 + (n / 64) % 64, 128 + n % 64]

/-- Models `pubkey.encode('utf-8').hex()`: two lowercase hex digits per byte
of the UTF-8 encoding.  `Nat.digitChar` yields `0`–`9`, `a`–`f` below 16. -/
def utf8HexDump (s : String) : String :=
  String.mk (s.toList.foldr
    (fun c acc => (utf8Bytes c).foldr
      (fun b acc2 => Nat.digitChar (b / 16) :: Nat.digitChar (b % 16) :: acc2) acc) [])

/-- One printed line of the script; each constructor is one `print(...)`,
carrying the values interpolated into its f-string. -/
inductive Line where
  | checkingOutputs : Nat → Line
  | outputMissing : Nat → Line
  | outputInvalid : Nat → Json → Nat → Line
  | hexRepr : String → Line
  | outputValid : Nat → Json → Line
  | checkingTransactions : Nat → Line
  | txMissing : Nat → Line
  | txHas : Nat → Nat → Line
  | validationSuccessful : Line
  | validationError : String → Line

/-- How the `try:` body terminates: normal fall-through, `sys.exit(code)`
(a `SystemExit`, not caught by `except Exception`), or an `Exception`
reaching the top-level handler. -/
inductive Outcome where
  | completed : Outcome
  | exited : Nat → Outcome
  | raised : String → Outcome

/-- The `for i, out in enumerate(data['outputs'])` loop (script lines
15–28), started at index `i`. -/
def processOutputs (i : Nat) : List Json → List Line × Outcome
  | [] => ([], .completed)
  | out :: rest =>
    match jget "tx_pub_key" out with
    | .error msg => ([], .raised msg)
    | .ok pkOpt =>
      let pubkey := pkOpt.getD Json.null
      if jtruthy pubkey then
        match validate_hexJ pubkey 64 with
        | .error msg => ([], .raised msg)
        | .ok true =>
          let r := processOutputs (i + 1) rest
          (.outputValid i pubkey :: r.1, r.2)
        | .ok false =>
          match jlen pubkey with
          | .error msg => ([], .raised msg)
          | .ok n =>
            match pubkey with
            | .str s => ([.outputInvalid i pubkey n, .hexRepr (utf8HexDump s)], .exited 1)
            | _ =>
              ([.outputInvalid i pubkey n],
               .raised ("AttributeError: " ++ pyTypeName pubkey ++ " object has no attribute encode"))
      else ([.outputMissing i], .exited 1)

/-- The `for i, tx in enumerate(data['transactions'])` loop (script lines
32–38), started at index `i`. -/
def processTransactions (i : Nat) : List Json → List Line × Outcome
  | [] => ([], .completed)
  | tx :: rest =>
    match jmem "spent_outputs" tx with
    | .error msg => ([], .raised msg)
    | .ok false => ([.txMissing i], .exited 1)
    | .ok true =>
      match jgetItem "spent_outputs" tx with
      | .error msg => ([], .raised msg)
      | .ok so =>
        match jlen so with
        | .error msg => ([], .raised msg)
        | .ok n =>
          let r := processTransactions (i + 1) rest
          (.txHas i n :: r.1, r.2)

/-- The body of the `try:` block after `json.load` succeeded (script lines
13–40, except the final success print). -/
def runBody (data : Json) : List Line × Outcome :=
  match jmem "outputs" data with
  | .error msg => ([], .raised msg)
  | .ok true =>
    match jgetItem "outputs" data with
    | .error msg => ([], .raised msg)
    | .ok outsVal =>
      match jlen outsVal with
      | .error msg => ([], .raised msg)
      | .ok n =>
        match jiter outsVal with
        | .error msg => ([.checkingOutputs n], .raised msg)
        | .ok items =>
          let r := processOutputs 0 items
          (.checkingOutputs n :: r.1, r.2)
  | .ok false =>
    match jmem "transactions" data with
    | .error msg => ([], .raised msg)
    | .ok true =>
      match jgetItem "transactions" data with
      | .error msg => ([], .raised msg)
      | .ok txsVal =>
        match jlen txsVal with
        | .error msg => ([], .raised msg)
        | .ok n =>
          match jiter txsVal with
          | .error msg => ([.checkingTransactions n], .raised msg)
          | .ok items =>
            let r := processTransactions 0 items
            (.checkingTransactions n :: r.1, r.2)
    | .ok false => ([], .completed)

/-- The whole script.  The input is the result of `json.load(sys.stdin)`:
`.error msg` models a raised `JSONDecodeError` carrying the parser's
description.  Returns the printed lines and the process exit code. -/
def run (input : Except String Json) : List Line × Nat :=
  match input with
  | .error msg => ([.validationError msg], 1)
  | .ok data =>
    match runBody data with
    | (ls, .completed) => (ls ++ [.validationSuccessful], 0)
    | (ls, .exited c) => (ls, c)
    | (ls, .raised msg) => (ls ++ [.validationError msg], 1)

/-! ### Derived predicates used to state the claims -/

/-- The value the script binds to `pubkey` for an output record:
`out.get('tx_pub_key')`, with `None` for an absent key (meaningful only
when the lookup does not raise). -/
def pkOf (out : Json) : Json :=
  match jget "tx_pub_key" out with
  | .ok (some v) => v
  | _ => .null

/-- An output record the script accepts: `tx_pub_key` present, truthy, and
passing `validate_hex(·, 64)` without raising. -/
def outputOk (out : Json) : Bool :=
  match jget "tx_pub_key" out with
  | .ok (some v) =>
    jtruthy v && (match validate_hexJ v 64 with | .ok true => true | _ => false)
  | _ => false

/-- An output record whose `tx_pub_key` is absent or falsy (and whose field
lookup does not raise): the script's missing-field case. -/
def outputFalsyKey (out : Json) : Bool :=
  match jget "tx_pub_key" out with
  | .ok none => true
  | .ok (some v) => !jtruthy v
  | .error _ => false

/-- Is the value a JSON object (Python dict)? -/
def isObjJ : Json → Bool
  | .obj _ => true
  | _ => false

/-- The success lines printed for a prefix of accepted output records,
starting at index `i`. -/
def validLines (i : Nat) : List Json → List Line
  | [] => []
  | out :: rest => .outputValid i (pkOf out) :: validLines (i + 1) rest

/-- A transaction record the script accepts: the membership test
`'spent_outputs' in tx` yields true and the subsequent lookup and `len`
do not raise. -/
def txOk (tx : Json) : Bool :=
  match jmem "spent_outputs" tx with
  | .ok true =>
    match jgetItem "spent_outputs" tx with
    | .ok so => (match jlen so with | .ok _ => true | .error _ => false)
    | .error _ => false
  | _ => false

/-- The element count the script reports for an accepted transaction. -/
def txCount (tx : Json) : Nat :=
  match jgetItem "spent_outputs" tx with
  | .ok so => (match jlen so with | .ok n => n | .error _ => 0)
  | .error _ => 0

/-- The report lines printed for accepted transactions, starting at `i`. -/
def txLines (i : Nat) : List Json → List Line
  | [] => []
  | tx :: rest => .txHas i (txCount tx) :: txLines (i + 1) rest

/-- A lowercase hexadecimal digit (`0`–`9`, `a`–`f`): the alphabet of
Python's `bytes.hex()`. -/
def isLowerHexChar (c : Char) : Bool :=
  (Char.ofNat 48 ≤ c && c ≤ Char.ofNat 57) ||
  (Char.ofNat 97 ≤ c && c ≤ Char.ofNat 102)

/-- A 64-character lowercase hex string (64 repetitions of `a`), used as a
concrete valid `tx_pub_key`. -/
def hex64 : String := String.mk (List.replicate 64 (Char.ofNat 97))

/-- A concrete accepted output record. -/
def vOut : Json := .obj [("tx_pub_key", .str hex64)]

/-! ### Helper lemmas about the loops -/

theorem processOutputs_cons_ok (i : Nat) (out : Json) (rest : List Json)
    (h : outputOk out = true) :
    processOutputs i (out :: rest) =
      (Line.outputValid i (pkOf out) :: (processOutputs (i + 1) rest).1,
       (processOutputs (i + 1) rest).2) := by
  cases hg : jget "tx_pub_key" out with
  | error msg => simp [outputOk, hg] at h
  | ok pkOpt =>
    cases pkOpt with
    | none => simp [outputOk, hg] at h
    | some v =>
      cases hv : validate_hexJ v 64 with
      | error msg => simp [outputOk, hg, hv] at h
      | ok b =>
        cases b with
        | false => simp [outputOk, hg, hv] at h
        | true =>
          have ht : jtruthy v = true := by
            have h2 := h
            simp [outputOk, hg, hv] at h2
            exact h2
          simp [processOutputs, hg, ht, hv, pkOf]

theorem processOutputs_append_ok (pre : List Json)
    (h : ∀ x ∈ pre, outputOk x = true) (i : Nat) (tail : List Json) :
    processOutputs i (pre ++ tail) =
      (validLines i pre ++ (processOutputs (i + pre.length) tail).1,
       (processOutputs (i + pre.length) tail).2) := by
  induction pre generalizing i with
  | nil => simp [validLines]
  | cons out pre ih =>
    have hout : outputOk out = true := h out (by simp)
    have hpre : ∀ x ∈ pre, outputOk x = true := fun x hx => h x (by simp [hx])
    rw [List.cons_append, processOutputs_cons_ok i out (pre ++ tail) hout,
      ih hpre (i + 1)]
    simp only [validLines, List.cons_append, List.length_cons]
    rw [show i + 1 + pre.length = i + (pre.length + 1) from by omega]

theorem processTransactions_cons_ok (i : Nat) (tx : Json) (rest : List Json)
    (h : txOk tx = true) :
    processTransactions i (tx :: rest) =
      (Line.txHas i (txCount tx) :: (processTransactions (i + 1) rest).1,
       (processTransactions (i + 1) rest).2) := by
  cases hm : jmem "spent_outputs" tx with
  | error msg => simp [txOk, hm] at h
  | ok b =>
    cases b with
    | false => simp [txOk, hm] at h
    | true =>
      cases hgi : jgetItem "spent_outputs" tx with
      | error msg => simp [txOk, hm, hgi] at h
      | ok so =>
        cases hl : jlen so with
        | error msg => simp [txOk, hm, hgi, hl] at h
        | ok n =>
          simp [processTransactions, txCount, hm, hgi, hl]

theorem processTransactions_all_ok (txs : List Json)
    (h : ∀ tx ∈ txs, txOk tx = true) (i : Nat) :
    processTransactions i txs = (txLines i txs, .completed) := by
  induction txs generalizing i with
  | nil => simp [processTransactions, txLines]
  | cons tx rest ih =>
    have htx : txOk tx = true := h tx (by simp)
    have hrest : ∀ x ∈ rest, txOk x = true := fun x hx => h x (by simp [hx])
    rw [processTransactions_cons_ok i tx rest htx, ih hrest (i + 1), txLines]

theorem runBody_outputs_doc (items : List Json) :
    runBody (.obj [("outputs", .arr items)]) =
      (Line.checkingOutputs items.length :: (processOutputs 0 items).1,
       (processOutputs 0 items).2) := rfl

theorem runBody_transactions_doc (txs : List Json) :
    runBody (.obj [("transactions", .arr txs)]) =
      (Line.checkingTransactions txs.length :: (processTransactions 0 txs).1,
       (processTransactions 0 txs).2) := rfl

/-- `validate_hex` applied by the script to a string value never raises and
agrees with the two-argument function of the source. -/
theorem validate_hexJ_str (s : String) (n : Nat) :
    validate_hexJ (Json.str s) n = .ok (validate_hex s n) := by
  simp only [validate_hexJ, jlen, validate_hex]
  split <;> rfl

theorem processOutputs_falsy (i : Nat) (out : Json) (rest : List Json)
    (h : outputFalsyKey out = true) :
    processOutputs i (out :: rest) = ([Line.outputMissing i], .exited 1) := by
  cases hg : jget "tx_pub_key" out with
  | error msg => simp [outputFalsyKey, hg] at h
  | ok pkOpt =>
    cases pkOpt with
    | none => simp [processOutputs, hg, jtruthy]
    | some v =>
      have ht : jtruthy v = false := by
        have h2 := h
        simp [outputFalsyKey, hg] at h2
        exact h2
      simp [processOutputs, hg, ht]

theorem processOutputs_invalid_str (i : Nat) (out : Json) (s : String)
    (rest : List Json)
    (hg : jget "tx_pub_key" out = .ok (some (Json.str s)))
    (hne : s.length ≠ 0) (hv : validate_hex s 64 = false) :
    processOutputs i (out :: rest) =
      ([Line.outputInvalid i (Json.str s) s.length, Line.hexRepr (utf8HexDump s)],
       .exited 1) := by
  have ht : jtruthy (Json.str s) = true := by simp [jtruthy]; omega
  have hvj : validate_hexJ (Json.str s) 64 = .ok false := by
    rw [validate_hexJ_str, hv]
  simp [processOutputs, hg, ht, hvj, jlen]

theorem processOutputs_nonobj (i : Nat) (out : Json) (rest : List Json)
    (h : isObjJ out = false) :
    processOutputs i (out :: rest) =
      ([], .raised ("AttributeError: " ++ pyTypeName out ++
        " object has no attribute get")) := by
  cases out with
  | obj kvs => simp [isObjJ] at h
  | null => rfl
  | bool b => rfl
  | num n => rfl
  | str s => rfl
  | arr xs => rfl

theorem processOutputs_exit_code (xs : List Json) :
    ∀ i c, (processOutputs i xs).2 = Outcome.exited c → c = 1 := by
  induction xs with
  | nil => intro i c h; simp [processOutputs] at h
  | cons out rest ih =>
    intro i c h
    simp only [processOutputs] at h
    split at h
    · simp at h
    · split at h
      · split at h
        · simp at h
        · exact ih (i + 1) c (by simpa using h)
        · split at h
          · simp at h
          · split at h
            · simp at h; omega
            · simp at h
      · simp at h; omega

theorem processTransactions_exit_code (xs : List Json) :
    ∀ i c, (processTransactions i xs).2 = Outcome.exited c → c = 1 := by
  induction xs with
  | nil => intro i c h; simp [processTransactions] at h
  | cons tx rest ih =>
    intro i c h
    simp only [processTransactions] at h
    split at h
    · simp at h
    · simp at h; omega
    · split at h
      · simp at h
      · split at h
        · simp at h
        · exact ih (i + 1) c (by simpa using h)

theorem runBody_exit_code (data : Json) (c : Nat)
    (h : (runBody data).2 = Outcome.exited c) : c = 1 := by
  simp only [runBody] at h
  split at h
  · simp at h
  · split at h
    · simp at h
    · split at h
      · simp at h
      · split at h
        · simp at h
        · exact processOutputs_exit_code _ 0 c (by simpa using h)
  · split at h
    · simp at h
    · split at h
      · simp at h
      · split at h
        · simp at h
        · split at h
          · simp at h
          · exact processTransactions_exit_code _ 0 c (by simpa using h)
    · simp at h

/-- Character-level description of the regex stage: after the mandatory
greedy hex run, `$` accepts exactly when the whole input is hex, or when
everything except a single trailing newline is hex. -/
theorem dollarAt_dropHexRun : ∀ cs : List Char,
    dollarAt (dropHexRun cs) = true ↔
      (cs.all isHexDigitPy = true ∨
       (cs.getLast? = some (Char.ofNat 10) ∧ cs.dropLast.all isHexDigitPy = true))
  | [] => by simp [dropHexRun, dollarAt]
  | [c] => by
    by_cases hc : isHexDigitPy c = true
    · simp [dropHexRun, hc, dollarAt]
    · simp only [dropHexRun, if_neg hc, dollarAt, List.all_cons, List.all_nil,
        Bool.and_true, List.getLast?_singleton, List.dropLast_single,
        Option.some.injEq, beq_iff_eq]
      simp [hc]
  | c :: d :: ds => by
    have ih := dollarAt_dropHexRun (d :: ds)
    by_cases hc : isHexDigitPy c = true
    · rw [show dropHexRun (c :: d :: ds) = dropHexRun (d :: ds) from by
        simp [dropHexRun, hc]]
      rw [ih]
      simp only [List.all_cons, hc, Bool.true_and, List.getLast?_cons_cons,
        List.dropLast_cons₂]
    · rw [show dropHexRun (c :: d :: ds) = c :: d :: ds from by
        simp [dropHexRun, hc]]
      simp only [dollarAt, List.all_cons, List.getLast?_cons_cons,
        List.dropLast_cons₂]
      simp [hc]

theorem utf8Bytes_lt_256 (c : Char) : ∀ b ∈ utf8Bytes c, b < 256 := by
  have hc : c.toNat < 1114112 := by
    rcases c.valid with h | ⟨_, h2⟩
    · exact Nat.lt_trans h (by decide)
    · exact h2
  intro b hb
  simp only [utf8Bytes] at hb
  split_ifs at hb <;> simp at hb <;> omega

theorem digitChar_lower : ∀ n < 16, isLowerHexChar (Nat.digitChar n) = true := by
  decide

theorem utf8HexDump_lower (s : String) :
    (utf8HexDump s).toList.all isLowerHexChar = true := by
  have inner : ∀ (bs : List Nat) (acc : List Char), (∀ b ∈ bs, b < 256) →
      acc.all isLowerHexChar = true →
      (bs.foldr (fun b acc2 =>
          Nat.digitChar (b / 16) :: Nat.digitChar (b % 16) :: acc2) acc).all
        isLowerHexChar = true := by
    intro bs
    induction bs with
    | nil => intro acc _ hacc; exact hacc
    | cons b bs ihb =>
      intro acc hlt hacc
      have hb : b < 256 := hlt b (by simp)
      simp only [List.foldr_cons, List.all_cons, Bool.and_eq_true]
      refine ⟨digitChar_lower _ (by omega), digitChar_lower _ (by omega),
        ihb acc (fun x hx => hlt x (by simp [hx])) hacc⟩
  show (s.toList.foldr
      (fun c acc => (utf8Bytes c).foldr
        (fun b acc2 => Nat.digitChar (b / 16) :: Nat.digitChar (b % 16) :: acc2) acc)
      []).all isLowerHexChar = true
  induction s.toList with
  | nil => rfl
  | cons c cs ih =>
    simp only [List.foldr_cons]
    exact inner (utf8Bytes c) _ (utf8Bytes_lt_256 c) ih

/-! ### Claim theorems -/

/-- Claim C1, counterexample: the 64-character string made of 63 `a`s and a
trailing newline contains a character outside `[0-9a-fA-F]`, yet
`validate_hex` accepts it, because Python's `$` also matches just before a
newline at the end of the string.  The claim that the predicate returns
false for every string containing a non-hex character is therefore false. -/
theorem c1_counterexample :
    validate_hex (String.mk (List.replicate 63 (Char.ofNat 97) ++ [Char.ofNat 10])) 64 = true ∧
    (String.mk (List.replicate 63 (Char.ofNat 97) ++
      [Char.ofNat 10])).toList.all isHexDigitPy = false := by
  constructor <;> decide

/-- Claim C1, amended: `validate_hex s 64` returns true exactly for the
strings of length 64 that either consist only of `[0-9a-fA-F]` characters,
or consist of 63 such characters followed by one trailing newline (the
Python `$`-before-final-newline exception); it returns false for every
other string. -/
theorem c1_hex_predicate (s : String) :
    validate_hex s 64 = true ↔
      (s.length = 64 ∧
        (s.toList.all isHexDigitPy = true ∨
         (s.toList.getLast? = some (Char.ofNat 10) ∧
          s.toList.dropLast.all isHexDigitPy = true))) := by
  unfold validate_hex
  by_cases hl : s.length = 64
  · have hlen : s.toList.length = 64 := hl
    rw [if_neg (by simp [hl])]
    unfold pyReMatchHexPlus
    cases hcs : s.toList with
    | nil => rw [hcs] at hlen; simp at hlen
    | cons c cs =>
      rw [hcs] at hlen
      cases cs with
      | nil => simp at hlen
      | cons d ds =>
        rw [Bool.and_eq_true, dollarAt_dropHexRun]
        simp only [hl, true_and, List.all_cons, List.getLast?_cons_cons,
          List.dropLast_cons₂, Bool.and_eq_true]
        tauto
  · rw [if_pos (by simp [hl])]
    simp [hl]

/-- Witness for C1's amended theorem: concrete 64-character all-hex and
63-hex-plus-newline strings are accepted, in accordance with the
characterization. -/
theorem c1_hex_predicate_witness :
    validate_hex hex64 64 = true ∧
    validate_hex (String.mk (List.replicate 63 (Char.ofNat 97) ++ [Char.ofNat 10])) 64 = true := by
  constructor
  · exact (c1_hex_predicate hex64).mpr (by constructor <;> decide)
  · exact (c1_hex_predicate (String.mk (List.replicate 63 (Char.ofNat 97) ++
      [Char.ofNat 10]))).mpr (by constructor <;> decide)

/-- Claim C2, counterexample: in `{"transactions": [{"spent_outputs": 5}]}`
the key `spent_outputs` is present in the (only) transaction element, yet
its validation does not succeed: `len(5)` raises a `TypeError`, the run
prints the generic error line instead of an index/count report, and exits
with code 1.  Key presence alone is therefore not sufficient. -/
theorem c2_counterexample :
    run (.ok (.obj [("transactions", .arr [.obj [("spent_outputs", .num 5)]])])) =
      ([Line.checkingTransactions 1,
        Line.validationError "TypeError: object of type int has no len"], 1) := rfl

/-- Claim C2, amended: for a `transactions` document each of whose elements
passes the membership test for `spent_outputs` and whose `spent_outputs`
value supports `len` (a string, array, or object — no deeper constraint on
its contents), the run validates every element, reporting its index and
the element count of its `spent_outputs`, and succeeds. -/
theorem c2_transactions_reported (txs : List Json)
    (h : ∀ tx ∈ txs, txOk tx = true) :
    run (.ok (.obj [("transactions", .arr txs)])) =
      (Line.checkingTransactions txs.length ::
        (txLines 0 txs ++ [Line.validationSuccessful]), 0) := by
  have hbody := runBody_transactions_doc txs
  rw [processTransactions_all_ok txs h 0] at hbody
  simp [run, hbody]

/-- Witness for C2's amended theorem: the spec's `{"transactions":
[{"spent_outputs": [1,2,3]}]}` example reports index 0 with 3 items and
exits 0. -/
theorem c2_transactions_reported_witness :
    run (.ok (.obj [("transactions",
        .arr [.obj [("spent_outputs", .arr [.num 1, .num 2, .num 3])]])])) =
      (Line.checkingTransactions 1 ::
        (txLines 0 [.obj [("spent_outputs", .arr [.num 1, .num 2, .num 3])]] ++
          [Line.validationSuccessful]), 0) :=
  c2_transactions_reported
    [.obj [("spent_outputs", .arr [.num 1, .num 2, .num 3])]] (by decide)

/-- Claim C3: when the top-level object carries both `outputs` and
`transactions` (in either field order), the run is identical to the run on
the document with the `transactions` entry removed: only `outputs` is
validated and `transactions` is silently ignored. -/
theorem c3_outputs_precedence (o t : Json) :
    run (.ok (.obj [("outputs", o), ("transactions", t)])) =
      run (.ok (.obj [("outputs", o)])) ∧
    run (.ok (.obj [("transactions", t), ("outputs", o)])) =
      run (.ok (.obj [("outputs", o)])) := by
  constructor <;> rfl

/-- Claim C4: the exit code is always 0 or 1; it is 0 exactly when the
`try` body runs to completion (after which the success line is printed);
the empty document `{}` is such a no-op success; and a parse failure exits
with code 1. -/
theorem c4_exit_codes :
    (∀ input : Except String Json, (run input).2 = 0 ∨ (run input).2 = 1) ∧
    (∀ data : Json,
      ((run (.ok data)).2 = 0 ↔ (runBody data).2 = Outcome.completed)) ∧
    (∀ data : Json, (run (.ok data)).2 = 0 →
      (run (.ok data)).1.getLast? = some Line.validationSuccessful) ∧
    run (.ok (.obj [])) = ([Line.validationSuccessful], 0) ∧
    (∀ msg : String, (run (.error msg)).2 = 1) := by
  refine ⟨?_, ?_, ?_, rfl, fun msg => rfl⟩
  · intro input
    match input with
    | .error msg => right; rfl
    | .ok data =>
      rcases hb : runBody data with ⟨ls, oc⟩
      cases oc with
      | completed => left; simp [run, hb]
      | exited c =>
        right
        have hc : c = 1 := runBody_exit_code data c (by rw [hb])
        simp [run, hb, hc]
      | raised m => right; simp [run, hb]
  · intro data
    rcases hb : runBody data with ⟨ls, oc⟩
    cases oc with
    | completed => simp [run, hb]
    | exited c =>
      have hc : c = 1 := runBody_exit_code data c (by rw [hb])
      simp [run, hb, hc]
    | raised m => simp [run, hb]
  · intro data h
    rcases hb : runBody data with ⟨ls, oc⟩
    cases oc with
    | completed => simp [run, hb]
    | exited c =>
      have hc : c = 1 := runBody_exit_code data c (by rw [hb])
      rw [hc] at hb
      simp [run, hb] at h
    | raised m => simp [run, hb] at h

/-- Witness for C4: the empty document exits 0 and its last line is the
success message. -/
theorem c4_exit_codes_witness :
    (run (.ok (Json.obj []))).1.getLast? = some Line.validationSuccessful :=
  c4_exit_codes.2.2.1 (Json.obj []) rfl

/-- Claim C5: when every output record before position `pre.length` is
accepted and the record there has an absent or falsy `tx_pub_key`, the run
prints the per-record success lines, then the missing-field error citing
the 0-based index `pre.length`, and exits with code 1; the records after
the failing one contribute nothing to the output (fail-fast). -/
theorem c5_missing_field_fail_fast (pre : List Json) (out : Json)
    (rest : List Json)
    (hpre : ∀ x ∈ pre, outputOk x = true)
    (hout : outputFalsyKey out = true) :
    run (.ok (.obj [("outputs", .arr (pre ++ out :: rest))])) =
      (Line.checkingOutputs (pre ++ out :: rest).length ::
        (validLines 0 pre ++ [Line.outputMissing pre.length]), 1) := by
  have hbody := runBody_outputs_doc (pre ++ out :: rest)
  rw [processOutputs_append_ok pre hpre 0 (out :: rest),
      processOutputs_falsy (0 + pre.length) out rest hout] at hbody
  simp [run, hbody]

/-- Witness for C5: one valid record, then `{}` (missing `tx_pub_key`),
then a further record that is never inspected. -/
theorem c5_missing_field_fail_fast_witness :
    run (.ok (.obj [("outputs", .arr ([vOut] ++ Json.obj [] :: [.num 7]))])) =
      (Line.checkingOutputs ([vOut] ++ Json.obj [] :: [Json.num 7]).length ::
        (validLines 0 [vOut] ++ [Line.outputMissing [vOut].length]), 1) :=
  c5_missing_field_fail_fast [vOut] (.obj []) [.num 7] (by decide) (by decide)

/-- Claim C6, counterexample: with `tx_pub_key` the truthy non-string value
`[1, 2, 3]` — which `validate_hex(·, 64)` rejects by its length test — the
run prints the invalid-field line (index, value, length) but then
`pubkey.encode('utf-8')` raises `AttributeError`, so no hexadecimal dump is
printed; the run ends with the generic error line and exit code 1.  The
claimed diagnostic (including the byte-encoding dump) is therefore not
produced for every truthy value failing the hex predicate. -/
theorem c6_counterexample :
    run (.ok (.obj [("outputs",
        .arr [.obj [("tx_pub_key", .arr [.num 1, .num 2, .num 3])]])])) =
      ([Line.checkingOutputs 1,
        Line.outputInvalid 0 (.arr [.num 1, .num 2, .num 3]) 3,
        Line.validationError "AttributeError: list object has no attribute encode"],
       1) := rfl

/-- Claim C6, amended: when every output record before position
`pre.length` is accepted and the record there carries a truthy string
`tx_pub_key` that fails the hex predicate, the run prints the invalid-field
line reporting the index, the offending value, and its length, then the
hex-repr line with the dump of the value's UTF-8 encoding — a string over
the lowercase hex alphabet — and exits with code 1. -/
theorem c6_invalid_field_diag (pre : List Json) (out : Json) (s : String)
    (rest : List Json)
    (hpre : ∀ x ∈ pre, outputOk x = true)
    (hg : jget "tx_pub_key" out = .ok (some (.str s)))
    (hne : s.length ≠ 0) (hv : validate_hex s 64 = false) :
    run (.ok (.obj [("outputs", .arr (pre ++ out :: rest))])) =
      (Line.checkingOutputs (pre ++ out :: rest).length ::
        (validLines 0 pre ++
          [Line.outputInvalid pre.length (.str s) s.length,
           Line.hexRepr (utf8HexDump s)]), 1) ∧
      (utf8HexDump s).toList.all isLowerHexChar = true := by
  refine ⟨?_, utf8HexDump_lower s⟩
  have hbody := runBody_outputs_doc (pre ++ out :: rest)
  rw [processOutputs_append_ok pre hpre 0 (out :: rest),
      processOutputs_invalid_str (0 + pre.length) out s rest hg hne hv] at hbody
  simp [run, hbody]

/-- Witness for C6's amended theorem: the spec's `{"outputs":
[{"tx_pub_key": "xyz"}]}` example prints the invalid-field line with
length 3 and the dump `78797a`, and exits 1. -/
theorem c6_invalid_field_diag_witness :
    run (.ok (.obj [("outputs", .arr ([] ++ Json.obj [("tx_pub_key", .str "xyz")] :: []))])) =
      (Line.checkingOutputs ([] ++ Json.obj [("tx_pub_key", Json.str "xyz")] :: []).length ::
        (validLines 0 [] ++
          [Line.outputInvalid (List.length ([] : List Json)) (.str "xyz") "xyz".length,
           Line.hexRepr (utf8HexDump "xyz")]), 1) ∧
      (utf8HexDump "xyz").toList.all isLowerHexChar = true :=
  c6_invalid_field_diag [] (.obj [("tx_pub_key", .str "xyz")]) "xyz" []
    (by decide) rfl (by decide) (by decide)

/-- Claim C7: when `json.load` fails, the run prints exactly one line — the
generic error line carrying the parser's message — performs no validation,
and exits with code 1. -/
theorem c7_parse_error (msg : String) :
    run (.error msg) = ([Line.validationError msg], 1) := rfl

/-- Claim C8: the program is a pure function of its input document — equal
parse results yield identical printed lines and exit codes. -/
theorem c8_deterministic (a b : Except String Json) (h : a = b) :
    run a = run b := by rw [h]

/-- Witness for C8: two runs on the empty document coincide. -/
theorem c8_deterministic_witness :
    run (.ok (.obj [])) = run (.ok (.obj [])) :=
  c8_deterministic (.ok (.obj [])) (.ok (.obj [])) rfl

/-- Claim C9: when every output record before position `pre.length` is
accepted and the element there is not a JSON object, the `out.get(...)`
lookup raises an `AttributeError` that only the top-level handler catches:
the run prints the generic error line — no missing-field or invalid-field
diagnostic for that index — and exits with code 1. -/
theorem c9_nonobject_element (pre : List Json) (out : Json)
    (rest : List Json)
    (hpre : ∀ x ∈ pre, outputOk x = true)
    (hobj : isObjJ out = false) :
    run (.ok (.obj [("outputs", .arr (pre ++ out :: rest))])) =
      (Line.checkingOutputs (pre ++ out :: rest).length ::
        (validLines 0 pre ++
          [Line.validationError ("AttributeError: " ++ pyTypeName out ++
            " object has no attribute get")]), 1) := by
  have hbody := runBody_outputs_doc (pre ++ out :: rest)
  rw [processOutputs_append_ok pre hpre 0 (out :: rest),
      processOutputs_nonobj (0 + pre.length) out rest hobj] at hbody
  simp [run, hbody]

/-- Witness for C9: `{"outputs": ["hello"]}` exits 1 with the generic
error line. -/
theorem c9_nonobject_element_witness :
    run (.ok (.obj [("outputs", .arr ([] ++ Json.str "hello" :: []))])) =
      (Line.checkingOutputs ([] ++ Json.str "hello" :: []).length ::
        (validLines 0 [] ++
          [Line.validationError ("AttributeError: " ++ pyTypeName (.str "hello") ++
            " object has no attribute get")]), 1) :=
  c9_nonobject_element [] (.str "hello") [] (by decide) (by decide)

/-- Claim C10: two well-formed non-object top-level documents that exit 1
through the generic handler: the bare number `5`, where the key-membership
test raises a `TypeError`, and the array `["outputs"]`, where membership
succeeds but indexing with a string key raises. -/
theorem c10_nonobject_toplevel :
    run (.ok (.num 5)) =
      ([Line.validationError "TypeError: argument of type int is not iterable"], 1) ∧
    run (.ok (.arr [.str "outputs"])) =
      ([Line.validationError "TypeError: list indices must be integers or slices, not str"],
       1) :=
  ⟨rfl, rfl⟩

end ValidateLws
